import Mathlib

/-!
Verification of the persistence and query layer of the tax-deductible
expense tracker (`src/scripts/database.js`, `src/scripts/expenses.js`,
`src/scripts/backup.js`, and the dashboard/expense-manager modules).

The IndexedDB-backed record store is embedded as an explicit state
(`DB`) holding the three collections together with the auto-increment
counters of the two keyed stores.  Operations that can reject
(IndexedDB `ConstraintError`, the `not found` / `Invalid backup file
format` exceptions) return `Except DBError`.  Currency amounts and
percentages are modelled as exact rationals, matching the spec's
"floating decimal, no rounding at storage time".  Calendar dates are
`year/month/day` triples; the JavaScript millisecond timestamp of a
date-only value is represented by an order-isomorphic day key scaled to
milliseconds (the host is assumed to run with local time = UTC, so
`setHours(0,0,0,0)` on a date-only value is the identity and
`setHours(23,59,59,999)` adds 86399999 ms).  Wall-clock readings
(`new Date().toISOString()`) are passed in explicitly as `now`
parameters.
-/

namespace TaxTracker

/-- Calendar date as carried by an ISO `YYYY-MM-DD` string:
`month` and `day` are 1-based exactly as written in the string. -/
structure Date where
  year : Int
  month : Nat
  day : Nat
deriving DecidableEq, Repr

/-- A structurally valid calendar date (the range check a real
`YYYY-MM-DD` string satisfies). -/
def Date.isValid (d : Date) : Prop :=
  1 ≤ d.month ∧ d.month ≤ 12 ∧ 1 ≤ d.day ∧ d.day ≤ 31

instance (d : Date) : Decidable d.isValid := by
  unfold Date.isValid; infer_instance

/-- JavaScript `Date.prototype.getMonth()`: zero-based month. -/
def Date.getMonth (d : Date) : Nat := d.month - 1

/-- JavaScript `Date.prototype.getFullYear()`. -/
def Date.getFullYear (d : Date) : Int := d.year

/-- Day index of a date, strictly monotone in the calendar order of
structurally valid dates. -/
def Date.dayKey (d : Date) : Int :=
  (d.year * 12 + ((d.month : Int) - 1)) * 31 + ((d.day : Int) - 1)

/-- Stand-in for `new Date(dateOnlyString).getTime()` in a local = UTC
host: midnight of the day, in milliseconds, via the order-isomorphic
day key. -/
def Date.ms (d : Date) : Int := d.dayKey * 86400000

/-- One receipt attachment as built by the receipt manager
(`receipts.js`): `{name, type, size, data, uploadedAt}`. -/
structure Receipt where
  name : String
  mime : String
  size : Nat
  payload : String
  uploadedAt : String
deriving DecidableEq, Repr

/-- The id-less payload of an expense record (the fields a caller
supplies; `id` is the store key). -/
structure ExpenseData where
  datePaid : Date
  merchant : String
  expenseDetails : String
  expenseCategory : String
  expenseAmount : ℚ
  percentUsedForWork : ℚ
  deductible : ℚ
  notes : String
  receiptFiles : List Receipt
  createdAt : String
  updatedAt : String
deriving DecidableEq, Repr

/-- A stored expense record: payload plus the store-assigned key. -/
structure Expense extends ExpenseData where
  id : Nat
deriving DecidableEq, Repr

/-- The id-less payload of a category record. -/
structure CategoryData where
  name : String
  color : String
  icon : String
deriving DecidableEq, Repr

/-- A stored category record. -/
structure Category extends CategoryData where
  id : Nat
deriving DecidableEq, Repr

/-- Rejections surfaced by the modelled operations: IndexedDB
`ConstraintError` (key or unique-index collision — the spec's
`DuplicateCategory`), the `Expense with ID ... not found` exception
(the spec's `NotFound`), and the `Invalid backup file format`
exception of the backup manager (the spec's `InvalidSnapshot`). -/
inductive DBError where
  | ConstraintError
  | NotFound (id : Nat)
  | InvalidSnapshot
deriving DecidableEq, Repr

/-- The whole store: the three IndexedDB object stores plus the
auto-increment key generators of `expenses` and `categories`.  Lists
are kept in ascending key order, which is both IndexedDB's `getAll`
order and the insertion order in every modelled scenario. -/
structure DB where
  expenses : List Expense
  categories : List Category
  settings : List (String × String)
  nextExpenseId : Nat
  nextCategoryId : Nat
deriving DecidableEq, Repr

/-! ## Expense ledger: deductible formula and validation
(`expenses.js` / `src/unnamed/part_003`, identical in both copies) -/

/-- Model of `ExpenseManager.calculateDeductible`. -/
def calculateDeductible (expenseAmount percentUsedForWork : ℚ) : ℚ :=
  expenseAmount * percentUsedForWork / 100

/-- An expense draft as validated by `validateExpense`: every field may
be absent (JavaScript `undefined`). -/
structure ExpenseDraft where
  datePaid : Option String
  merchant : Option String
  expenseDetails : Option String
  expenseCategory : Option String
  expenseAmount : Option ℚ
  percentUsedForWork : Option ℚ
deriving DecidableEq, Repr

/-- JavaScript `!expense.field` for an optional string field: truthy
test fails when the field is absent or the empty string. -/
def strFalsy : Option String → Bool
  | none => true
  | some s => s = ""

/-- Model of the merchant/details check: absent, empty or whitespace-only. -/
def strFalsyOrBlank : Option String → Bool
  | none => true
  | some s => s.trim = ""

/-- Model of `!expense.expenseAmount || expense.expenseAmount <= 0` (for a
number, `!x` is the test `x = 0`, subsumed by `x ≤ 0`). -/
def amountRejected : Option ℚ → Bool
  | none => true
  | some a => a = 0 || a ≤ 0

/-- Model of the work-percentage check: absent, below 0 or above 100. -/
def percentRejected : Option ℚ → Bool
  | none => true
  | some p => p < 0 || p > 100

/-- Model of `ExpenseManager.validateExpense`: collects the violation messages
of all six independent checks, in source order. -/
def validateExpense (e : ExpenseDraft) : List String :=
  (if strFalsy e.datePaid then ["Date Paid is required"] else []) ++
  (if strFalsyOrBlank e.merchant then ["Merchant is required"] else []) ++
  (if strFalsyOrBlank e.expenseDetails then ["Expense Details is required"] else []) ++
  (if strFalsy e.expenseCategory then ["Expense Category is required"] else []) ++
  (if amountRejected e.expenseAmount then ["Expense Amount must be greater than 0"] else []) ++
  (if percentRejected e.percentUsedForWork then ["% Used for Work must be between 0 and 100"] else [])

/-- The spec's acceptability rules for a draft, stated from the spec's
words: date present; merchant non-empty after trim; details non-empty
after trim; category present; amount present and `> 0`;
work-percentage present and within `[0, 100]`. -/
def draftAcceptable (e : ExpenseDraft) : Prop :=
  (∃ s, e.datePaid = some s ∧ s ≠ "") ∧
  (∃ s, e.merchant = some s ∧ s.trim ≠ "") ∧
  (∃ s, e.expenseDetails = some s ∧ s.trim ≠ "") ∧
  (∃ s, e.expenseCategory = some s ∧ s ≠ "") ∧
  (∃ a, e.expenseAmount = some a ∧ 0 < a) ∧
  (∃ p, e.percentUsedForWork = some p ∧ 0 ≤ p ∧ p ≤ 100)

/-- Model of `ExpenseManager.createExpenseFromForm`: builds the expense object
from the form fields, computing `deductible` via
`calculateDeductible`; `receiptFiles` starts empty and the timestamps
are filled in by the store. -/
def createExpenseFromForm (datePaid : Date) (merchant expenseDetails expenseCategory : String)
    (expenseAmount percentUsedForWork : ℚ) (notes : String) : ExpenseData :=
  { datePaid := datePaid
    merchant := merchant
    expenseDetails := expenseDetails
    expenseCategory := expenseCategory
    expenseAmount := expenseAmount
    percentUsedForWork := percentUsedForWork
    deductible := calculateDeductible expenseAmount percentUsedForWork
    notes := notes
    receiptFiles := []
    createdAt := ""
    updatedAt := "" }

/-! ## Record store operations (`database.js`)

`addExpense` / `addCategory` model IndexedDB `store.add` on an
`autoIncrement` store with in-line keys: a record carrying an explicit
`id` uses it as the key (failing with `ConstraintError` when the key
exists, and bumping the generator past it), a record without one gets
the generator's next value; the `categories` store additionally has a
unique index on `name` whose violation also rejects with
`ConstraintError`. -/

/-- Model of `Database.addExpense`: spreads the given object, overwrites
`createdAt`/`updatedAt` with the current time, and `store.add`s it.
`eid` is the `id` property of the passed object when it has one. -/
def DB.addExpense (s : DB) (e : ExpenseData) (eid : Option Nat) (now : String) :
    Except DBError (DB × Nat) :=
  let stamped : ExpenseData := { e with createdAt := now, updatedAt := now }
  match eid with
  | some k =>
      if s.expenses.any (fun x => decide (x.id = k)) then
        .error .ConstraintError
      else
        .ok ({ s with
                 expenses := s.expenses ++ [⟨stamped, k⟩],
                 nextExpenseId := max s.nextExpenseId (k + 1) }, k)
  | none =>
      .ok ({ s with
               expenses := s.expenses ++ [⟨stamped, s.nextExpenseId⟩],
               nextExpenseId := s.nextExpenseId + 1 }, s.nextExpenseId)

/-- Model of `Database.getExpense`. -/
def DB.getExpense (s : DB) (id : Nat) : Option Expense :=
  s.expenses.find? (fun e => decide (e.id = id))

/-- Model of `Database.getAllExpenses`. -/
def DB.getAllExpenses (s : DB) : List Expense := s.expenses

/-- A patch handed to `Database.updateExpense`: any subset of the
record's own properties (including `id`, `deductible` and the
timestamps) may be present. -/
structure ExpensePatch where
  id : Option Nat := none
  datePaid : Option Date := none
  merchant : Option String := none
  expenseDetails : Option String := none
  expenseCategory : Option String := none
  expenseAmount : Option ℚ := none
  percentUsedForWork : Option ℚ := none
  deductible : Option ℚ := none
  notes : Option String := none
  receiptFiles : Option (List Receipt) := none
  createdAt : Option String := none
  updatedAt : Option String := none
deriving DecidableEq, Repr

/-- The spread `{...expense, ...updates, id: id, updatedAt: now}` of
`Database.updateExpense`: patch fields win over the stored record,
then `id` and `updatedAt` are forced. -/
def applyPatch (e : Expense) (p : ExpensePatch) (id : Nat) (now : String) : Expense :=
  { id := id
    datePaid := p.datePaid.getD e.datePaid
    merchant := p.merchant.getD e.merchant
    expenseDetails := p.expenseDetails.getD e.expenseDetails
    expenseCategory := p.expenseCategory.getD e.expenseCategory
    expenseAmount := p.expenseAmount.getD e.expenseAmount
    percentUsedForWork := p.percentUsedForWork.getD e.percentUsedForWork
    deductible := p.deductible.getD e.deductible
    notes := p.notes.getD e.notes
    receiptFiles := p.receiptFiles.getD e.receiptFiles
    createdAt := p.createdAt.getD e.createdAt
    updatedAt := now }

/-- Model of `store.put` of a record whose key is already present: replace by
key. -/
def replaceById (l : List Expense) (id : Nat) (u : Expense) : List Expense :=
  l.map (fun x => if x.id = id then u else x)

/-- Model of `Database.updateExpense`: throws `not found` when the id is
absent, otherwise merges and `store.put`s the merged record (replace
by key). -/
def DB.updateExpense (s : DB) (id : Nat) (p : ExpensePatch) (now : String) :
    Except DBError (DB × Expense) :=
  match s.getExpense id with
  | none => .error (.NotFound id)
  | some e =>
      let u := applyPatch e p id now
      .ok ({ s with expenses := replaceById s.expenses id u }, u)

/-- Model of `Database.deleteExpense`. -/
def DB.deleteExpense (s : DB) (id : Nat) : DB :=
  { s with expenses := s.expenses.filter (fun e => !decide (e.id = id)) }

/-- Model of `Database.addCategory` (the `categories` store has a unique index
on `name`, created in `Database.init`). -/
def DB.addCategory (s : DB) (c : CategoryData) (cid : Option Nat) :
    Except DBError (DB × Nat) :=
  if s.categories.any (fun x => decide (x.name = c.name)) then
    .error .ConstraintError
  else
    match cid with
    | some k =>
        if s.categories.any (fun x => decide (x.id = k)) then
          .error .ConstraintError
        else
          .ok ({ s with
                   categories := s.categories ++ [⟨c, k⟩],
                   nextCategoryId := max s.nextCategoryId (k + 1) }, k)
    | none =>
        .ok ({ s with
                 categories := s.categories ++ [⟨c, s.nextCategoryId⟩],
                 nextCategoryId := s.nextCategoryId + 1 }, s.nextCategoryId)

/-- Model of `Database.getAllCategories`. -/
def DB.getAllCategories (s : DB) : List Category := s.categories

/-- Model of `Database.deleteCategory`: unconditional delete by key; succeeds
whether or not the key exists. -/
def DB.deleteCategory (s : DB) (id : Nat) : DB :=
  { s with categories := s.categories.filter (fun c => !decide (c.id = id)) }

/-- Model of `Database.getSetting` (value or the supplied default). -/
def DB.getSetting (s : DB) (key : String) (defaultValue : Option String) : Option String :=
  match s.settings.find? (fun kv => decide (kv.1 = key)) with
  | some kv => some kv.2
  | none => defaultValue

/-- Model of `Database.setSetting` (`store.put`: upsert by key). -/
def DB.setSetting (s : DB) (key value : String) : DB :=
  if s.settings.any (fun kv => decide (kv.1 = key)) then
    { s with settings := s.settings.map (fun kv => if kv.1 = key then (key, value) else kv) }
  else
    { s with settings := s.settings ++ [(key, value)] }

/-- The fixed built-in category set seeded by
`Database.initializeDefaultCategories` on an empty registry. -/
def defaultCategories : List CategoryData :=
  [ ⟨"Internet", "#4c9aff", "🌐"⟩
  , ⟨"Electricity", "#ffab00", "⚡"⟩
  , ⟨"Computer", "#36b37e", "💻"⟩
  , ⟨"Furniture", "#ff5630", "🪑"⟩
  , ⟨"Office Supplies", "#00b8d9", "📎"⟩
  , ⟨"Software", "#ff8b00", "💿"⟩
  , ⟨"Professional Services", "#00875a", "🤝"⟩
  , ⟨"Travel", "#5243aa", "✈️"⟩
  , ⟨"Mobile Device", "#ff991f", "📱"⟩
  , ⟨"Other", "#8993a4", "📋"⟩ ]

/-- The `for (const category of defaultCategories) await
this.addCategory(category)` seeding loop. -/
def DB.seedCategories (s : DB) : List CategoryData → Except DBError DB
  | [] => .ok s
  | c :: rest =>
      match s.addCategory c none with
      | .error err => .error err
      | .ok (s', _) => s'.seedCategories rest

/-- Model of `Database.initializeDefaultCategories`: on a non-empty registry,
run the Desk/Chair → Furniture migration if it is pending, else return
the current set unchanged; on an empty registry, seed the defaults. -/
def DB.initializeDefaultCategories (s : DB) : Except DBError (DB × List Category) :=
  let existing := s.categories
  if existing.length > 0 then
    let desk := existing.find? (fun c => decide (c.name = "Desk"))
    let chair := existing.find? (fun c => decide (c.name = "Chair"))
    let furniture := existing.find? (fun c => decide (c.name = "Furniture"))
    if (desk.isSome || chair.isSome) && !furniture.isSome then
      match s.addCategory ⟨"Furniture", "#ff5630", "🪑"⟩ none with
      | .error err => .error err
      | .ok (s1, _) =>
          let s2 := match desk with
            | some d => s1.deleteCategory d.id
            | none => s1
          let s3 := match chair with
            | some c => s2.deleteCategory c.id
            | none => s2
          .ok (s3, s3.categories)
    else
      .ok (s, existing)
  else
    match s.seedCategories defaultCategories with
    | .error err => .error err
    | .ok s' => .ok (s', s'.categories)

/-! ## Snapshot exchange (`database.js` export/import, `backup.js`) -/

/-- The snapshot document: `expenses` / `categories` are `Option`s
because an import document may lack them (JavaScript `undefined`). -/
structure Snapshot where
  expenses : Option (List Expense)
  categories : Option (List Category)
  exportDate : String
  version : Nat
deriving DecidableEq, Repr

/-- Model of `Database.exportData`. -/
def DB.exportData (s : DB) (now : String) : Snapshot :=
  { expenses := some s.getAllExpenses
    categories := some s.getAllCategories
    exportDate := now
    version := 1 }

/-- The `for (const category of data.categories) await
this.addCategory(category)` import loop: the exported records carry
their ids. -/
def DB.addCategoriesWithIds (s : DB) : List Category → Except DBError DB
  | [] => .ok s
  | c :: rest =>
      match s.addCategory c.toCategoryData (some c.id) with
      | .error err => .error err
      | .ok (s', _) => s'.addCategoriesWithIds rest

/-- The `for (const expense of data.expenses) await
this.addExpense(expense)` import loop (each `addExpense` re-stamps the
timestamps; the wall clock is modelled as frozen at `now` for the
duration of the import). -/
def DB.addExpensesWithIds (s : DB) (now : String) : List Expense → Except DBError DB
  | [] => .ok s
  | e :: rest =>
      match s.addExpense e.toExpenseData (some e.id) now with
      | .error err => .error err
      | .ok (s', _) => s'.addExpensesWithIds now rest

/-- The `if (data.categories) { ... }` phase of `Database.importData`:
a missing field is silently skipped, a present one is bulk-inserted. -/
def DB.importCategoriesStep (s0 : DB) : Option (List Category) → Except DBError DB
  | none => .ok s0
  | some cs => s0.addCategoriesWithIds cs

/-- The `if (data.expenses) { ... }` phase of `Database.importData`,
ending in the `return true`. -/
def DB.importExpensesStep (s1 : DB) (now : String) :
    Option (List Expense) → Except DBError (DB × Bool)
  | none => .ok (s1, true)
  | some es =>
      match s1.addExpensesWithIds now es with
      | .error err => .error err
      | .ok s2 => .ok (s2, true)

/-- Model of `Database.importData`: clears the `expenses` and `categories`
stores unconditionally, then bulk-inserts whichever of the two fields
the document carries (a missing field is silently skipped, not
rejected), and resolves `true`. -/
def DB.importData (s : DB) (d : Snapshot) (now : String) : Except DBError (DB × Bool) :=
  match DB.importCategoriesStep { s with expenses := [], categories := [] } d.categories with
  | .error err => .error err
  | .ok s1 => s1.importExpensesStep now d.expenses

/-- Model of `BackupManager.importData`, the file-picker import path: rejects a
document whose `expenses` or `categories` field is absent (`Invalid
backup file format`) before calling `db.importData`; the user's
confirmation dialog is modelled as accepted. -/
def backupImportData (s : DB) (d : Snapshot) (now : String) : Except DBError (DB × Bool) :=
  if !d.expenses.isSome || !d.categories.isSome then
    .error .InvalidSnapshot
  else
    s.importData d now

/-! ## Query engine: filtering (`ExpenseManager.filterExpenses`,
`src/unnamed/part_003`) -/

/-- The expense-list filter state (`this.currentFilter`): the UI
select values of literal `all` and the empty date strings are modelled as
`none`. -/
structure Filter where
  category : Option String := none
  year : Option Int := none
  quarter : Option Nat := none
  dateFrom : Option Date := none
  dateTo : Option Date := none
  searchTerm : String := ""
deriving DecidableEq, Repr

/-- Case-insensitive JS `String.prototype.includes` on the lowered
haystack: substring containment over the character list. -/
def containsSub (hay sub : List Char) : Bool :=
  decide (sub <:+: hay)

/-- The category check of `filterExpenses`. -/
def categoryPass (f : Filter) (e : Expense) : Bool :=
  match f.category with
  | none => true
  | some c => decide (e.expenseCategory = c)

/-- The date check of `filterExpenses`: an explicit `dateFrom && dateTo`
range (widened to start-of-day / end-of-day) takes the first branch;
otherwise the year filter and, under it, the quarter filter apply. -/
def datePass (f : Filter) (e : Expense) : Bool :=
  match f.dateFrom, f.dateTo with
  | some dFrom, some dTo =>
      !(decide (e.datePaid.ms < dFrom.ms) || decide (e.datePaid.ms > dTo.ms + 86399999))
  | _, _ =>
      match f.year with
      | none => true
      | some y =>
          if e.datePaid.getFullYear ≠ y then
            false
          else
            match f.quarter with
            | none => true
            | some q => decide (e.datePaid.getMonth / 3 + 1 = q)

/-- The free-text check of `filterExpenses`: lower-cased substring
match against the space-joined merchant, details, category and notes. -/
def searchPass (f : Filter) (e : Expense) : Bool :=
  if f.searchTerm = "" then
    true
  else
    containsSub
      ((String.intercalate " "
        [e.merchant, e.expenseDetails, e.expenseCategory, e.notes]).toLower.toList)
      f.searchTerm.toLower.toList

/-- Model of `ExpenseManager.filterExpenses`: the three checks run in sequence,
each early-returning `false`, i.e. their conjunction. -/
def filterExpenses (f : Filter) (es : List Expense) : List Expense :=
  es.filter (fun e => categoryPass f e && datePass f e && searchPass f e)

/-! ## Dashboard grouping (`DashboardManager.groupByMonth`,
`src/unnamed/part_004`) -/

/-- A calendar month: year and zero-based month, as produced by the
JavaScript `Date` month arithmetic. -/
structure CalMonth where
  year : Int
  month0 : Nat
deriving DecidableEq, Repr

/-- Model of JavaScript `new Date(y, m, 1)` for an arbitrary integer month expression `m`:
JavaScript normalises the month into `[0, 12)` carrying into the
year. -/
def calMonthOf (y m : Int) : CalMonth :=
  ⟨y + Int.fdiv m 12, (Int.emod m 12).toNat⟩

/-- Month label as rendered by the en-US short-month, 2-digit-year locale format. -/
def monthShortNames : List String :=
  ["Jan", "Feb", "Mar", "Apr", "May", "Jun", "Jul", "Aug", "Sep", "Oct", "Nov", "Dec"]

/-- The short month-and-year label of a month bar. -/
def monthLabel (mo : CalMonth) : String :=
  let yy := (Int.emod mo.year 100).toNat
  (monthShortNames.getD mo.month0 "") ++ " " ++
    (if yy < 10 then "0" ++ toString yy else toString yy)

/-- One entry of the monthly trend:
`{label, deductible: Σ deductible, count}`. -/
structure MonthEntry where
  label : String
  deductible : ℚ
  count : Nat
deriving DecidableEq, Repr

/-- The expense-belongs-to-month test of the `groupByMonth` loop body
(`getFullYear`/`getMonth` comparison). -/
def monthMatches (mo : CalMonth) (e : Expense) : Bool :=
  decide (e.datePaid.getFullYear = mo.year) && decide (e.datePaid.getMonth = mo.month0)

/-- The entry the loop pushes for trailing index `i` (the bar for
`new Date(now.year, now.month0 - i, 1)`): label, `reduce`-summed
deductible and count of the expenses landing in that month. -/
def monthEntryFor (es : List Expense) (nowM : CalMonth) (i : Nat) : MonthEntry :=
  { label := monthLabel (calMonthOf nowM.year ((nowM.month0 : Int) - (i : Int)))
    deductible :=
      (es.filter (monthMatches (calMonthOf nowM.year ((nowM.month0 : Int) - (i : Int))))).foldl
        (fun sum e => sum + e.deductible) 0
    count :=
      (es.filter (monthMatches (calMonthOf nowM.year ((nowM.month0 : Int) - (i : Int))))).length }

/-- Model of `DashboardManager.groupByMonth`: the loop runs
`i = months-1, …, 0`, so entry `j` of the result is the bar for
`i = months-1-j`. -/
def groupByMonth (es : List Expense) (months : Nat) (nowM : CalMonth) : List MonthEntry :=
  (List.range months).map (fun j => monthEntryFor es nowM (months - 1 - j))

/-! ## Concrete states used by the counterexamples and witnesses -/

def c10exp : Expense :=
  { datePaid := ⟨2024, 1, 10⟩
    merchant := "Econet"
    expenseDetails := "Monthly internet"
    expenseCategory := "Internet"
    expenseAmount := 100
    percentUsedForWork := 50
    deductible := 50
    notes := ""
    receiptFiles := []
    createdAt := "2024-01-10T08:00:00.000Z"
    updatedAt := "2024-01-10T08:00:00.000Z"
    id := 1 }

def c10db : DB :=
  { expenses := [c10exp], categories := [], settings := [], nextExpenseId := 2, nextCategoryId := 1 }

def c10patch : ExpensePatch :=
  { id := some 99, merchant := some "TelOne" }

def c4draftBoth : ExpenseDraft :=
  { datePaid := some "2024-01-10"
    merchant := some "Econet"
    expenseDetails := some "Internet"
    expenseCategory := some "Internet"
    expenseAmount := some 0
    percentUsedForWork := some 150 }

def c7db : DB :=
  { expenses := [], categories := [], settings := [], nextExpenseId := 1, nextCategoryId := 1 }

def c7cat : CategoryData := ⟨"Internet", "#4c9aff", "🌐"⟩

def c7db1 : DB :=
  { expenses := [], categories := [⟨c7cat, 1⟩], settings := [], nextExpenseId := 1,
    nextCategoryId := 2 }

def c1exp : Expense :=
  { datePaid := ⟨2024, 1, 10⟩
    merchant := "Econet"
    expenseDetails := "Monthly internet"
    expenseCategory := "Internet"
    expenseAmount := 100
    percentUsedForWork := 50
    deductible := 50
    notes := ""
    receiptFiles := []
    createdAt := "2024-01-10T08:00:00.000Z"
    updatedAt := "2024-01-10T08:00:00.000Z"
    id := 1 }

def c1db : DB :=
  { expenses := [c1exp], categories := [], settings := [], nextExpenseId := 2, nextCategoryId := 1 }

/-- A patch touching only the amount (half of the derived pair). -/
def c1patch : ExpensePatch := { expenseAmount := some 200 }

/-- The record `updateExpense` persists for `c1patch`: amount changed,
`deductible` untouched. -/
def c1updated : Expense :=
  { c1exp with expenseAmount := 200, updatedAt := "2024-02-01T08:00:00.000Z" }

def c2exp : Expense :=
  { datePaid := ⟨2024, 1, 10⟩
    merchant := "Econet"
    expenseDetails := "Monthly internet"
    expenseCategory := "Internet"
    expenseAmount := 100
    percentUsedForWork := 50
    deductible := 50
    notes := ""
    receiptFiles := []
    createdAt := "2024-01-10T08:00:00.000Z"
    updatedAt := "2024-01-10T08:00:00.000Z"
    id := 1 }

def c2db : DB :=
  { expenses := [c2exp]
    categories := [⟨⟨"Internet", "#4c9aff", "🌐"⟩, 1⟩]
    settings := [("lastGoogleDriveBackupDate", "2024-01-01T00:00:00.000Z")]
    nextExpenseId := 2
    nextCategoryId := 2 }

/-- A snapshot document with both the `expenses` and the `categories`
fields absent. -/
def c2snap : Snapshot :=
  { expenses := none, categories := none, exportDate := "2024-03-01", version := 1 }

def c2snapFull : Snapshot :=
  { expenses := some [], categories := none, exportDate := "2024-03-01", version := 1 }

/-- What `addExpense` does to a re-inserted record: every field kept,
timestamps overwritten with the import-time clock. -/
def restampExpense (now : String) (e : Expense) : Expense :=
  { e with createdAt := now, updatedAt := now }

def c3exp : Expense :=
  { datePaid := ⟨2024, 1, 10⟩
    merchant := "Econet"
    expenseDetails := "Monthly internet"
    expenseCategory := "Internet"
    expenseAmount := 100
    percentUsedForWork := 50
    deductible := 50
    notes := ""
    receiptFiles := []
    createdAt := "2024-01-10T08:00:00.000Z"
    updatedAt := "2024-01-10T08:00:00.000Z"
    id := 1 }

def c3db : DB :=
  { expenses := [c3exp]
    categories := [⟨⟨"Internet", "#4c9aff", "🌐"⟩, 1⟩]
    settings := []
    nextExpenseId := 2
    nextCategoryId := 2 }

/-- The store after the round trip at the concrete state: the expense
comes back with its id but with both timestamps re-stamped to the time
of the import. -/
def c3after : DB :=
  { expenses := [{ c3exp with
                     createdAt := "2025-06-01T00:00:01.000Z",
                     updatedAt := "2025-06-01T00:00:01.000Z" }]
    categories := [⟨⟨"Internet", "#4c9aff", "🌐"⟩, 1⟩]
    settings := []
    nextExpenseId := 2
    nextCategoryId := 2 }

/-- A sample expense record used by the concrete filtering and
grouping examples; only the date (and key) vary. -/
def sampleExpense (d : Date) (k : Nat) : Expense :=
  { datePaid := d
    merchant := "Econet"
    expenseDetails := "Internet subscription"
    expenseCategory := "Internet"
    expenseAmount := 100
    percentUsedForWork := 50
    deductible := 50
    notes := ""
    receiptFiles := []
    createdAt := "2024-01-01T00:00:00.000Z"
    updatedAt := "2024-01-01T00:00:00.000Z"
    id := k }

def c5expenses : List Expense :=
  [sampleExpense ⟨2024, 1, 15⟩ 1, sampleExpense ⟨2024, 4, 10⟩ 2,
   sampleExpense ⟨2024, 12, 31⟩ 3]

def c5filterYQ : Filter := { year := some 2024, quarter := some 1 }

def c5filterRange : Filter :=
  { dateFrom := some ⟨2024, 1, 1⟩, dateTo := some ⟨2024, 6, 30⟩ }

/-- Trailing month `j` (0-based from the oldest) of the
`months`-month window ending at `nowM`: the source loop index is
`i = months - 1 - j`. -/
def trailingMonth (nowM : CalMonth) (months j : Nat) : CalMonth :=
  calMonthOf nowM.year ((nowM.month0 : Int) - ((months - 1 - j : Nat) : Int))

/-- A single expense in May 2024, the middle month of the 3-month
window ending June 2024. -/
def c8expenses : List Expense := [sampleExpense ⟨2024, 5, 10⟩ 1]

/-- The ten seeded category records when the key generator starts at
`k` (`addCategory` assigns consecutive ids). -/
def defaultsWithIds (k : Nat) : List Category :=
  [ ⟨⟨"Internet", "#4c9aff", "🌐"⟩, k⟩
  , ⟨⟨"Electricity", "#ffab00", "⚡"⟩, k + 1⟩
  , ⟨⟨"Computer", "#36b37e", "💻"⟩, k + 2⟩
  , ⟨⟨"Furniture", "#ff5630", "🪑"⟩, k + 3⟩
  , ⟨⟨"Office Supplies", "#00b8d9", "📎"⟩, k + 4⟩
  , ⟨⟨"Software", "#ff8b00", "💿"⟩, k + 5⟩
  , ⟨⟨"Professional Services", "#00875a", "🤝"⟩, k + 6⟩
  , ⟨⟨"Travel", "#5243aa", "✈️"⟩, k + 7⟩
  , ⟨⟨"Mobile Device", "#ff991f", "📱"⟩, k + 8⟩
  , ⟨⟨"Other", "#8993a4", "📋"⟩, k + 9⟩ ]

/-- The `Furniture` record the migration inserts. -/
def furnCat (k : Nat) : Category := ⟨⟨"Furniture", "#ff5630", "🪑"⟩, k⟩

def c6db : DB :=
  { expenses := [], categories := [⟨⟨"Desk", "#8993a4", "🪑"⟩, 1⟩], settings := [],
    nextExpenseId := 1, nextCategoryId := 2 }

/-! ## General lemmas about the store operations -/

theorem find?_replaceById (l : List Expense) (id id' : Nat) (u : Expense)
    (hu : u.id = id) (hne : id' ≠ id) :
    (replaceById l id u).find? (fun e => decide (e.id = id')) =
      l.find? (fun e => decide (e.id = id')) := by
  induction l with
  | nil => rfl
  | cons x xs ih =>
      by_cases hx : x.id = id
      · simp only [replaceById, List.map_cons, List.find?_cons, if_pos hx]
        have h1 : (decide (u.id = id') : Bool) = false := by
          simp only [hu, decide_eq_false_iff_not]
          exact fun hh => hne hh.symm
        have h2 : (decide (x.id = id') : Bool) = false := by
          simp only [hx, decide_eq_false_iff_not]
          exact fun hh => hne hh.symm
        rw [h1, h2]
        exact ih
      · simp only [replaceById, List.map_cons, List.find?_cons, if_neg hx]
        cases hd : (decide (x.id = id') : Bool) with
        | true => rfl
        | false => exact ih

/-! ## C9 -/

/-- C9: `deleteCategory` never deletes or alters any expense: the
expense collection (and the settings collection) is exactly the same
afterwards, every lookup returns the identical record with its
original `expenseCategory` string, and the category delete only
filters the category list. -/
theorem deleteCategory_frame (s : DB) (catId : Nat) :
    (s.deleteCategory catId).expenses = s.expenses ∧
    (s.deleteCategory catId).settings = s.settings ∧
    (∀ id, (s.deleteCategory catId).getExpense id = s.getExpense id) ∧
    (s.deleteCategory catId).getAllExpenses = s.getAllExpenses :=
  ⟨rfl, rfl, fun _ => rfl, rfl⟩

/-! ## C10 -/

/-- C10: `updateExpense` forces the merged record's `id` to the `id`
argument (so a patch carrying a different `id` cannot re-key the
record and no other record's key changes), fields absent from the
patch keep their previous values, and `updatedAt` is the only field
overwritten unconditionally. -/
theorem updateExpense_forces_id (s : DB) (id : Nat) (p : ExpensePatch) (now : String)
    (e : Expense) (h : s.getExpense id = some e) :
    s.updateExpense id p now =
      .ok ({ s with expenses := replaceById s.expenses id (applyPatch e p id now) },
           applyPatch e p id now) ∧
    (applyPatch e p id now).id = id ∧
    (∀ j, p.id = some j → (applyPatch e p id now).id = id) ∧
    (∀ s' u, s.updateExpense id p now = .ok (s', u) →
      (∀ id', id' ≠ id → s'.getExpense id' = s.getExpense id') ∧
      s'.expenses.map Expense.id = s.expenses.map Expense.id) ∧
    (p.datePaid = none → (applyPatch e p id now).datePaid = e.datePaid) ∧
    (p.merchant = none → (applyPatch e p id now).merchant = e.merchant) ∧
    (p.expenseDetails = none → (applyPatch e p id now).expenseDetails = e.expenseDetails) ∧
    (p.expenseCategory = none → (applyPatch e p id now).expenseCategory = e.expenseCategory) ∧
    (p.expenseAmount = none → (applyPatch e p id now).expenseAmount = e.expenseAmount) ∧
    (p.percentUsedForWork = none →
      (applyPatch e p id now).percentUsedForWork = e.percentUsedForWork) ∧
    (p.deductible = none → (applyPatch e p id now).deductible = e.deductible) ∧
    (p.notes = none → (applyPatch e p id now).notes = e.notes) ∧
    (p.receiptFiles = none → (applyPatch e p id now).receiptFiles = e.receiptFiles) ∧
    (p.createdAt = none → (applyPatch e p id now).createdAt = e.createdAt) ∧
    (applyPatch e p id now).updatedAt = now := by
  have hrun : s.updateExpense id p now =
      .ok ({ s with expenses := replaceById s.expenses id (applyPatch e p id now) },
           applyPatch e p id now) := by
    unfold DB.updateExpense
    rw [h]
  refine ⟨hrun, rfl, fun j _ => rfl, ?_, ?_, ?_, ?_, ?_, ?_, ?_, ?_, ?_, ?_, ?_, rfl⟩
  · intro s' u hok
    rw [hrun] at hok
    have hs' : s' = { s with expenses := replaceById s.expenses id (applyPatch e p id now) } :=
      ((Prod.mk.injEq _ _ _ _).mp (Except.ok.inj hok)).1.symm
    subst hs'
    constructor
    · intro id' hne
      exact find?_replaceById s.expenses id id' _ rfl hne
    · show (replaceById s.expenses id (applyPatch e p id now)).map Expense.id =
        s.expenses.map Expense.id
      rw [replaceById, List.map_map]
      refine List.map_congr_left (fun x _ => ?_)
      by_cases hx : x.id = id
      · simp [hx, applyPatch]
      · simp [hx]
  all_goals intro hp; simp [applyPatch, hp]

theorem updateExpense_forces_id_witness :
    c10db.getExpense 1 = some c10exp ∧
    (applyPatch c10exp c10patch 1 "2024-02-01T08:00:00.000Z").id = 1 ∧
    c10patch.id = some 99 :=
  ⟨rfl,
   (updateExpense_forces_id c10db 1 c10patch "2024-02-01T08:00:00.000Z" c10exp rfl).2.1,
   rfl⟩

/-! ## C4 -/

theorem strFalsy_eq_false (o : Option String) :
    strFalsy o = false ↔ ∃ s, o = some s ∧ s ≠ "" := by
  cases o <;> simp [strFalsy]

theorem strFalsyOrBlank_eq_false (o : Option String) :
    strFalsyOrBlank o = false ↔ ∃ s, o = some s ∧ s.trim ≠ "" := by
  cases o <;> simp [strFalsyOrBlank]

theorem amountRejected_eq_false (o : Option ℚ) :
    amountRejected o = false ↔ ∃ a, o = some a ∧ 0 < a := by
  cases o with
  | none => simp [amountRejected]
  | some a =>
      constructor
      · intro hfalse
        simp only [amountRejected, Bool.or_eq_false_iff, decide_eq_false_iff_not] at hfalse
        exact ⟨a, rfl, not_le.mp hfalse.2⟩
      · rintro ⟨x, hx, hpos⟩
        obtain rfl : a = x := by injection hx
        simp only [amountRejected, Bool.or_eq_false_iff, decide_eq_false_iff_not]
        exact ⟨hpos.ne', not_le.mpr hpos⟩

theorem percentRejected_eq_false (o : Option ℚ) :
    percentRejected o = false ↔ ∃ p, o = some p ∧ 0 ≤ p ∧ p ≤ 100 := by
  cases o with
  | none => simp [percentRejected]
  | some p =>
      simp [percentRejected, not_lt]

theorem validateExpense_eq_nil (e : ExpenseDraft) :
    validateExpense e = [] ↔
      strFalsy e.datePaid = false ∧ strFalsyOrBlank e.merchant = false ∧
      strFalsyOrBlank e.expenseDetails = false ∧ strFalsy e.expenseCategory = false ∧
      amountRejected e.expenseAmount = false ∧
      percentRejected e.percentUsedForWork = false := by
  unfold validateExpense
  cases h1 : strFalsy e.datePaid <;>
    cases h2 : strFalsyOrBlank e.merchant <;>
      cases h3 : strFalsyOrBlank e.expenseDetails <;>
        cases h4 : strFalsy e.expenseCategory <;>
          cases h5 : amountRejected e.expenseAmount <;>
            cases h6 : percentRejected e.percentUsedForWork <;>
              simp

/-- C4: `validateExpense` checks its six rules independently and
collects every violation: the result is empty iff the draft satisfies
all of the spec's acceptability rules; a draft with amount 0 yields the
amount violation, a draft with work percentage 150 is rejected, and a
draft with both defects reports both messages in the one returned
list. -/
theorem validateExpense_spec (e : ExpenseDraft) :
    (validateExpense e = [] ↔ draftAcceptable e) ∧
    (e.expenseAmount = some 0 →
      "Expense Amount must be greater than 0" ∈ validateExpense e) ∧
    (e.percentUsedForWork = some 150 → validateExpense e ≠ []) ∧
    (e.expenseAmount = some 0 → e.percentUsedForWork = some 150 →
      "Expense Amount must be greater than 0" ∈ validateExpense e ∧
      "% Used for Work must be between 0 and 100" ∈ validateExpense e) := by
  have hamount : e.expenseAmount = some 0 → amountRejected e.expenseAmount = true := by
    intro h; rw [h]; simp [amountRejected]
  have hpercent : e.percentUsedForWork = some 150 →
      percentRejected e.percentUsedForWork = true := by
    intro h; rw [h]
    simp only [percentRejected, Bool.or_eq_true, decide_eq_true_eq]
    right; norm_num
  refine ⟨?_, ?_, ?_, ?_⟩
  · rw [validateExpense_eq_nil]
    unfold draftAcceptable
    rw [strFalsy_eq_false, strFalsyOrBlank_eq_false, strFalsyOrBlank_eq_false,
      strFalsy_eq_false, amountRejected_eq_false, percentRejected_eq_false]
  · intro h
    simp [validateExpense, hamount h]
  · intro h hnil
    rw [validateExpense_eq_nil] at hnil
    rw [hnil.2.2.2.2.2] at hpercent
    exact absurd (hpercent h) (by simp)
  · intro h1 h2
    exact ⟨by simp [validateExpense, hamount h1], by simp [validateExpense, hpercent h2]⟩

theorem validateExpense_spec_witness :
    c4draftBoth.expenseAmount = some 0 ∧ c4draftBoth.percentUsedForWork = some 150 ∧
    ("Expense Amount must be greater than 0" ∈ validateExpense c4draftBoth ∧
      "% Used for Work must be between 0 and 100" ∈ validateExpense c4draftBoth) :=
  ⟨rfl, rfl, (validateExpense_spec c4draftBoth).2.2.2 rfl rfl⟩

/-! ## C7 -/

/-- C7: a second `addCategory` with an already-present name
(case-sensitive exact match, enforced by the unique `name` index) is
rejected with `ConstraintError` — the spec's `DuplicateCategory` — and
the registry then holds exactly one category with that name. -/
theorem addCategory_duplicate (s : DB) (c c' : CategoryData) (cid cid' : Option Nat)
    (s1 : DB) (k : Nat) (hname : c'.name = c.name)
    (h : s.addCategory c cid = .ok (s1, k)) :
    s1.addCategory c' cid' = .error .ConstraintError ∧
    (s1.categories.filter (fun x => decide (x.name = c.name))).length = 1 := by
  unfold DB.addCategory at h
  split at h
  next hg => exact absurd h (by simp)
  next hg =>
    have hall : ∀ x ∈ s.categories, x.name ≠ c.name := by
      intro x hx
      have := List.any_eq_false.mp (Bool.eq_false_iff.mpr hg) x hx
      simpa using this
    have hcat : ∃ j, s1.categories = s.categories ++ [(⟨c, j⟩ : Category)] := by
      split at h
      next k0 =>
        split at h
        next => exact absurd h (by simp)
        next =>
          refine ⟨k0, ?_⟩
          rw [← ((Prod.mk.injEq _ _ _ _).mp (Except.ok.inj h)).1]
      next =>
        refine ⟨s.nextCategoryId, ?_⟩
        rw [← ((Prod.mk.injEq _ _ _ _).mp (Except.ok.inj h)).1]
    obtain ⟨j, hcat⟩ := hcat
    constructor
    · unfold DB.addCategory
      have hany : s1.categories.any (fun x => decide (x.name = c'.name)) = true := by
        rw [hcat, List.any_append]
        simp [hname]
      rw [if_pos hany]
    · rw [hcat, List.filter_append]
      have h1 : s.categories.filter (fun x => decide (x.name = c.name)) = [] :=
        List.filter_eq_nil_iff.mpr (fun x hx => by simpa using hall x hx)
      rw [h1]
      simp

theorem addCategory_duplicate_witness :
    c7cat.name = c7cat.name ∧
    c7db.addCategory c7cat none = .ok (c7db1, 1) ∧
    (c7db1.addCategory c7cat none = .error .ConstraintError ∧
      (c7db1.categories.filter (fun x => decide (x.name = c7cat.name))).length = 1) :=
  ⟨rfl, rfl, addCategory_duplicate c7db c7cat c7cat none none c7db1 1 rfl rfl⟩

/-! ## C1 -/

/-- C1 counterexample: `updateExpense` does not recompute `deductible`
from the merged amount and percentage.  Patching only
`expenseAmount` (100 → 200, at 50% work use) persists a record whose
stored `deductible` (50) differs from
`expenseAmount * percentUsedForWork / 100` (100): the operation
persists a stale derived value. -/
theorem deductible_update_counterexample :
    c1db.updateExpense 1 c1patch "2024-02-01T08:00:00.000Z" =
      .ok ({ c1db with expenses := [c1updated] }, c1updated) ∧
    c1updated.deductible ≠
      calculateDeductible c1updated.expenseAmount c1updated.percentUsedForWork := by
  constructor
  · rfl
  · show (50 : ℚ) ≠ calculateDeductible 200 50
    norm_num [calculateDeductible]

/-- C1 (amended): at creation the stored `deductible` equals
`expenseAmount * percentUsedForWork / 100` exactly
(`createExpenseFromForm` computes it and `addExpense` stores it
unchanged); `updateExpense` performs no recomputation — the merged
record's `deductible` is the patch's value when the patch carries one
and the old stored value otherwise — so the invariant survives an
update exactly when the patch itself carries the recomputed value, as
the UI's full-form patches do, and a partial patch touching only one
of the two fields persists a stale derived value. -/
theorem deductible_creation_update (dp : Date) (m det cat notes : String) (a p : ℚ)
    (s : DB) (now : String) (id : Nat) (e : Expense) (patch : ExpensePatch) :
    (createExpenseFromForm dp m det cat a p notes).deductible = a * p / 100 ∧
    (∀ s1 k, s.addExpense (createExpenseFromForm dp m det cat a p notes) none now =
        .ok (s1, k) →
      ∃ x ∈ s1.expenses, x.id = k ∧ x.deductible = a * p / 100) ∧
    (s.getExpense id = some e →
      ∀ s' u, s.updateExpense id patch now = .ok (s', u) →
        u.deductible = patch.deductible.getD e.deductible ∧
        u.expenseAmount = patch.expenseAmount.getD e.expenseAmount ∧
        u.percentUsedForWork = patch.percentUsedForWork.getD e.percentUsedForWork ∧
        (patch.deductible =
            some (calculateDeductible (patch.expenseAmount.getD e.expenseAmount)
              (patch.percentUsedForWork.getD e.percentUsedForWork)) →
          u.deductible = calculateDeductible u.expenseAmount u.percentUsedForWork)) := by
  refine ⟨rfl, ?_, ?_⟩
  · intro s1 k hok
    unfold DB.addExpense at hok
    have hs1 := ((Prod.mk.injEq _ _ _ _).mp (Except.ok.inj hok)).1.symm
    have hk := ((Prod.mk.injEq _ _ _ _).mp (Except.ok.inj hok)).2.symm
    subst hs1
    subst hk
    refine ⟨_, List.mem_append_right _ (List.mem_singleton_self _), rfl, rfl⟩
  · intro h s' u hok
    unfold DB.updateExpense at hok
    rw [h] at hok
    have hu := ((Prod.mk.injEq _ _ _ _).mp (Except.ok.inj hok)).2.symm
    subst hu
    refine ⟨rfl, rfl, rfl, ?_⟩
    intro hfull
    show patch.deductible.getD e.deductible = _
    rw [hfull]
    rfl

theorem deductible_creation_update_witness :
    c1db.getExpense 1 = some c1exp ∧
    (createExpenseFromForm ⟨2024, 1, 10⟩ "Econet" "Net" "Internet" 100 50 "").deductible =
      100 * 50 / 100 ∧
    (∀ s' u, c1db.updateExpense 1 c1patch "2024-02-01T08:00:00.000Z" = .ok (s', u) →
      u.deductible = c1patch.deductible.getD c1exp.deductible ∧
      u.expenseAmount = c1patch.expenseAmount.getD c1exp.expenseAmount ∧
      u.percentUsedForWork = c1patch.percentUsedForWork.getD c1exp.percentUsedForWork ∧
      (c1patch.deductible =
          some (calculateDeductible (c1patch.expenseAmount.getD c1exp.expenseAmount)
            (c1patch.percentUsedForWork.getD c1exp.percentUsedForWork)) →
        u.deductible = calculateDeductible u.expenseAmount u.percentUsedForWork)) :=
  ⟨rfl,
   (deductible_creation_update ⟨2024, 1, 10⟩ "Econet" "Net" "Internet" "" 100 50
     c1db "2024-02-01T08:00:00.000Z" 1 c1exp c1patch).1,
   (deductible_creation_update ⟨2024, 1, 10⟩ "Econet" "Net" "Internet" "" 100 50
     c1db "2024-02-01T08:00:00.000Z" 1 c1exp c1patch).2.2 rfl⟩

/-! ## C2 -/

theorem addCategory_settings_frame (s : DB) (c : CategoryData) (cid : Option Nat)
    (s' : DB) (k : Nat) (h : s.addCategory c cid = .ok (s', k)) :
    s'.settings = s.settings ∧ s'.expenses = s.expenses := by
  unfold DB.addCategory at h
  split at h
  · exact absurd h (by simp)
  · split at h
    · split at h
      · exact absurd h (by simp)
      · rw [← ((Prod.mk.injEq _ _ _ _).mp (Except.ok.inj h)).1]
        exact ⟨rfl, rfl⟩
    · rw [← ((Prod.mk.injEq _ _ _ _).mp (Except.ok.inj h)).1]
      exact ⟨rfl, rfl⟩

theorem addExpense_settings_frame (s : DB) (e : ExpenseData) (eid : Option Nat) (now : String)
    (s' : DB) (k : Nat) (h : s.addExpense e eid now = .ok (s', k)) :
    s'.settings = s.settings ∧ s'.categories = s.categories := by
  unfold DB.addExpense at h
  split at h
  · split at h
    · exact absurd h (by simp)
    · rw [← ((Prod.mk.injEq _ _ _ _).mp (Except.ok.inj h)).1]
      exact ⟨rfl, rfl⟩
  · rw [← ((Prod.mk.injEq _ _ _ _).mp (Except.ok.inj h)).1]
    exact ⟨rfl, rfl⟩

theorem addCategoriesWithIds_settings_frame (cs : List Category) :
    ∀ s0 s1 : DB, s0.addCategoriesWithIds cs = .ok s1 → s1.settings = s0.settings := by
  induction cs with
  | nil => intro s0 s1 h; rw [← Except.ok.inj h]
  | cons c rest ih =>
      intro s0 s1 h
      unfold DB.addCategoriesWithIds at h
      split at h
      · exact absurd h (by simp)
      next s' _ heq =>
        rw [ih s' s1 h, (addCategory_settings_frame s0 _ _ s' _ heq).1]

theorem addExpensesWithIds_settings_frame (es : List Expense) :
    ∀ (s0 s1 : DB) (now : String), s0.addExpensesWithIds now es = .ok s1 →
      s1.settings = s0.settings := by
  induction es with
  | nil => intro s0 s1 now h; rw [← Except.ok.inj h]
  | cons e rest ih =>
      intro s0 s1 now h
      unfold DB.addExpensesWithIds at h
      split at h
      · exact absurd h (by simp)
      next s' _ heq =>
        rw [ih s' s1 now h, (addExpense_settings_frame s0 _ _ now s' _ heq).1]

/-- C2 counterexample: `Database.importData` accepts a snapshot with
both collections absent — it resolves `true` instead of failing — and
it has already cleared both stores, so the expense and category
collections are *not* as they were before the call. -/
theorem importData_counterexample :
    c2db.importData c2snap "2024-03-02T00:00:00.000Z" =
      .ok ({ c2db with expenses := [], categories := [] }, true) ∧
    ({ c2db with expenses := [], categories := [] }).expenses ≠ c2db.expenses ∧
    ({ c2db with expenses := [], categories := [] }).categories ≠ c2db.categories := by
  refine ⟨rfl, ?_, ?_⟩ <;> simp [c2db]

/-- C2 (amended): the `InvalidSnapshot` check lives in the backup
manager, not the database layer.  `BackupManager.importData` rejects a
snapshot whose `expenses` or `categories` field is absent with the
`Invalid backup file format` error before any store call, so through
that path nothing is mutated; `Database.importData` itself performs no
validation and clears both collections unconditionally (see the
counterexample), though it never touches the settings collection on
any path. -/
theorem importData_validation (s : DB) (d : Snapshot) (now : String)
    (h : d.expenses = none ∨ d.categories = none) :
    backupImportData s d now = .error .InvalidSnapshot ∧
    (∀ s1 b, s.importData d now = .ok (s1, b) → s1.settings = s.settings) := by
  constructor
  · unfold backupImportData
    rcases h with h | h <;> rw [h] <;> simp
  · intro s1 b hok
    have hcat : ∀ (s0 sC : DB) (oc : Option (List Category)),
        s0.importCategoriesStep oc = .ok sC → sC.settings = s0.settings := by
      intro s0 sC oc hC
      cases oc with
      | none => rw [← Except.ok.inj hC]
      | some cs => exact addCategoriesWithIds_settings_frame cs s0 sC hC
    have hexp : ∀ (sC s1 : DB) (b : Bool) (oe : Option (List Expense)),
        sC.importExpensesStep now oe = .ok (s1, b) → s1.settings = sC.settings := by
      intro sC s1' b' oe hE
      cases oe with
      | none => rw [← ((Prod.mk.injEq _ _ _ _).mp (Except.ok.inj hE)).1]
      | some es =>
          simp only [DB.importExpensesStep] at hE
          split at hE
          · exact absurd hE (by simp)
          next s2 heq =>
            rw [← ((Prod.mk.injEq _ _ _ _).mp (Except.ok.inj hE)).1]
            exact addExpensesWithIds_settings_frame es sC s2 now heq
    unfold DB.importData at hok
    split at hok
    · exact absurd hok (by simp)
    next sC hC =>
      rw [hexp sC s1 b d.expenses hok, hcat _ sC d.categories hC]

theorem importData_validation_witness :
    (c2snapFull.expenses = none ∨ c2snapFull.categories = none) ∧
    backupImportData c2db c2snapFull "2024-03-02T00:00:00.000Z" = .error .InvalidSnapshot :=
  ⟨Or.inr rfl,
   (importData_validation c2db c2snapFull "2024-03-02T00:00:00.000Z" (Or.inr rfl)).1⟩

/-! ## C3 -/

theorem addCategoriesWithIds_ok (cs : List Category) :
    ∀ s0 : DB,
      (∀ c ∈ cs, ∀ x ∈ s0.categories, c.name ≠ x.name ∧ c.id ≠ x.id) →
      (cs.map (fun c => c.name)).Nodup → (cs.map Category.id).Nodup →
      ∃ nid, s0.addCategoriesWithIds cs =
        .ok { s0 with categories := s0.categories ++ cs, nextCategoryId := nid } := by
  induction cs with
  | nil =>
      intro s0 _ _ _
      exact ⟨s0.nextCategoryId, by simp [DB.addCategoriesWithIds]⟩
  | cons c rest ih =>
      intro s0 hfresh hn hi
      have hname : s0.categories.any (fun x => decide (x.name = c.toCategoryData.name)) = false := by
        apply List.any_eq_false.mpr
        intro x hx
        simp only [decide_eq_true_eq]
        exact fun hxx => (hfresh c (List.mem_cons_self c rest) x hx).1 hxx.symm
      have hid : s0.categories.any (fun x => decide (x.id = c.id)) = false := by
        apply List.any_eq_false.mpr
        intro x hx
        simp only [decide_eq_true_eq]
        exact fun hxx => (hfresh c (List.mem_cons_self c rest) x hx).2 hxx.symm
      have hstep : s0.addCategory c.toCategoryData (some c.id) =
          .ok ({ s0 with
                   categories := s0.categories ++ [c],
                   nextCategoryId := max s0.nextCategoryId (c.id + 1) }, c.id) := by
        unfold DB.addCategory
        simp [hname, hid]
      have hnamefresh : ∀ c' ∈ rest, c'.name ≠ c.name := by
        intro c' hc' hcontra
        apply (List.nodup_cons.mp hn).1
        show c.name ∈ List.map (fun c => c.name) rest
        rw [← hcontra]
        exact List.mem_map_of_mem _ hc'
      have hidfresh : ∀ c' ∈ rest, c'.id ≠ c.id := by
        intro c' hc' hcontra
        apply (List.nodup_cons.mp hi).1
        show c.id ∈ List.map Category.id rest
        rw [← hcontra]
        exact List.mem_map_of_mem _ hc'
      obtain ⟨nid, hrest⟩ := ih
        { s0 with
            categories := s0.categories ++ [c],
            nextCategoryId := max s0.nextCategoryId (c.id + 1) }
        (by
          intro c' hc' x hx
          rcases List.mem_append.mp hx with hx0 | hx1
          · exact hfresh c' (List.mem_cons_of_mem c hc') x hx0
          · obtain rfl : x = c := List.mem_singleton.mp hx1
            exact ⟨hnamefresh c' hc', hidfresh c' hc'⟩)
        (List.nodup_cons.mp hn).2 (List.nodup_cons.mp hi).2
      refine ⟨nid, ?_⟩
      simp only [DB.addCategoriesWithIds, hstep, hrest]
      simp [List.append_assoc]

theorem addExpensesWithIds_ok (es : List Expense) :
    ∀ (s0 : DB) (now : String),
      (∀ e ∈ es, ∀ x ∈ s0.expenses, e.id ≠ x.id) →
      (es.map Expense.id).Nodup →
      ∃ nid, s0.addExpensesWithIds now es =
        .ok { s0 with
                expenses := s0.expenses ++ es.map (restampExpense now),
                nextExpenseId := nid } := by
  induction es with
  | nil =>
      intro s0 now _ _
      exact ⟨s0.nextExpenseId, by simp [DB.addExpensesWithIds]⟩
  | cons e rest ih =>
      intro s0 now hfresh hi
      have hid : s0.expenses.any (fun x => decide (x.id = e.id)) = false := by
        apply List.any_eq_false.mpr
        intro x hx
        simp only [decide_eq_true_eq]
        exact fun hxx => (hfresh e (List.mem_cons_self e rest) x hx) hxx.symm
      have hstep : s0.addExpense e.toExpenseData (some e.id) now =
          .ok ({ s0 with
                   expenses := s0.expenses ++ [restampExpense now e],
                   nextExpenseId := max s0.nextExpenseId (e.id + 1) }, e.id) := by
        unfold DB.addExpense
        simp [hid, restampExpense]
      have hidfresh : ∀ e' ∈ rest, e'.id ≠ e.id := by
        intro e' he' hcontra
        apply (List.nodup_cons.mp hi).1
        show e.id ∈ List.map Expense.id rest
        rw [← hcontra]
        exact List.mem_map_of_mem _ he'
      obtain ⟨nid, hrest⟩ := ih
        { s0 with
            expenses := s0.expenses ++ [restampExpense now e],
            nextExpenseId := max s0.nextExpenseId (e.id + 1) }
        now
        (by
          intro e' he' x hx
          rcases List.mem_append.mp hx with hx0 | hx1
          · exact hfresh e' (List.mem_cons_of_mem e he') x hx0
          · obtain rfl : x = restampExpense now e := List.mem_singleton.mp hx1
            exact fun hcontra => hidfresh e' he' hcontra)
        (List.nodup_cons.mp hi).2
      refine ⟨nid, ?_⟩
      simp only [DB.addExpensesWithIds, hstep, hrest]
      simp [List.append_assoc]

/-- C3 counterexample: `importSnapshot(exportSnapshot())` preserves
the store-assigned ids (so the claim demands equivalence exact
including ids), yet the expense collection is not byte-for-byte
equivalent to its pre-round-trip state: `addExpense` re-stamps
`createdAt`/`updatedAt` during the import. -/
theorem roundtrip_counterexample :
    c3db.importData (c3db.exportData "2025-06-01T00:00:00.000Z") "2025-06-01T00:00:01.000Z" =
      .ok (c3after, true) ∧
    c3after.expenses.map Expense.id = c3db.expenses.map Expense.id ∧
    c3after.categories = c3db.categories ∧
    c3after.expenses ≠ c3db.expenses := by
  refine ⟨rfl, rfl, rfl, ?_⟩
  simp [c3after, c3db, c3exp]

theorem importData_eq (s : DB) (d : Snapshot) (now : String) (cs : List Category)
    (es : List Expense) (sC sE : DB) (hdc : d.categories = some cs)
    (hde : d.expenses = some es)
    (h1 : ({ s with expenses := [], categories := [] } : DB).addCategoriesWithIds cs = .ok sC)
    (h2 : sC.addExpensesWithIds now es = .ok sE) :
    s.importData d now = .ok (sE, true) := by
  unfold DB.importData
  rw [hdc]
  simp only [DB.importCategoriesStep, h1]
  rw [hde]
  simp only [DB.importExpensesStep, h2]

/-- C3 (amended): the round trip `importSnapshot(exportSnapshot())`
preserves ids (explicit keys are honoured on re-insert) and leaves the
category collection exactly equal and the settings untouched; the
expense collection is equal except that every record's `createdAt` and
`updatedAt` are re-stamped to the import time, so byte-for-byte
equivalence holds only up to those two store-managed timestamp
fields. -/
theorem export_import_roundtrip (s : DB) (t0 t1 : String)
    (hn : (s.categories.map (fun c => c.name)).Nodup)
    (hci : (s.categories.map Category.id).Nodup)
    (hei : (s.expenses.map Expense.id).Nodup) :
    ∃ s', s.importData (s.exportData t0) t1 = .ok (s', true) ∧
      s'.categories = s.categories ∧
      s'.expenses = s.expenses.map (restampExpense t1) ∧
      s'.expenses.map Expense.id = s.expenses.map Expense.id ∧
      s'.settings = s.settings := by
  obtain ⟨nc, hc⟩ := addCategoriesWithIds_ok s.categories
    { s with expenses := [], categories := [] }
    (fun c _ x hx => absurd hx (List.not_mem_nil x)) hn hci
  obtain ⟨ne, he⟩ := addExpensesWithIds_ok s.expenses
    { s with expenses := [], categories := [] ++ s.categories, nextCategoryId := nc } t1
    (fun e _ x hx => absurd hx (List.not_mem_nil x)) hei
  refine ⟨{ s with
              expenses := s.expenses.map (restampExpense t1),
              nextExpenseId := ne,
              nextCategoryId := nc }, ?_, rfl, rfl, ?_, rfl⟩
  · exact importData_eq s (s.exportData t0) t1 s.categories s.expenses _ _ rfl rfl hc he
  · rw [List.map_map]
    exact List.map_congr_left (fun x _ => rfl)

theorem export_import_roundtrip_witness :
    (c3db.categories.map (fun c => c.name)).Nodup ∧
    (c3db.categories.map Category.id).Nodup ∧
    (c3db.expenses.map Expense.id).Nodup ∧
    (∃ s', c3db.importData (c3db.exportData "2025-06-01T00:00:00.000Z")
        "2025-06-01T00:00:01.000Z" = .ok (s', true) ∧
      s'.categories = c3db.categories ∧
      s'.expenses = c3db.expenses.map (restampExpense "2025-06-01T00:00:01.000Z") ∧
      s'.expenses.map Expense.id = c3db.expenses.map Expense.id ∧
      s'.settings = c3db.settings) :=
  ⟨by decide, by decide, by decide,
   export_import_roundtrip c3db "2025-06-01T00:00:00.000Z" "2025-06-01T00:00:01.000Z"
     (by decide) (by decide) (by decide)⟩

/-! ## C5 -/

/-- The year/quarter arm of the date filter applies whenever the
explicit range is not fully set (the `dateFrom && dateTo` truthiness
test fails). -/
theorem datePass_eq_year_branch (f : Filter) (e : Expense)
    (h : f.dateFrom = none ∨ f.dateTo = none) :
    datePass f e = (match f.year with
      | none => true
      | some y =>
          if e.datePaid.getFullYear ≠ y then false
          else match f.quarter with
            | none => true
            | some q => decide (e.datePaid.getMonth / 3 + 1 = q)) := by
  unfold datePass
  rcases h with h | h
  · rw [h]
  · rw [h]
    cases f.dateFrom <;> rfl

/-- C5: an expense passes `filterExpenses` iff it passes the category
AND date AND search predicates; a fully-set `dateFrom`/`dateTo` range
takes priority over year/quarter (the equivalence below holds for
every `year`/`quarter` setting) and is inclusive of both endpoints at
day granularity; quarter filtering applies only under a year
constraint, quarter `q` covering the zero-based calendar months
`[3(q-1), 3(q-1)+2]`; and on the three sample dates the year/quarter
filter returns only the January record while the explicit range
returns the first two. -/
theorem filterExpenses_spec :
    (∀ f es e, e ∈ filterExpenses f es ↔
      e ∈ es ∧ categoryPass f e = true ∧ datePass f e = true ∧ searchPass f e = true) ∧
    (∀ f e dF dT, f.dateFrom = some dF → f.dateTo = some dT →
      (datePass f e = true ↔
        dF.dayKey ≤ e.datePaid.dayKey ∧ e.datePaid.dayKey ≤ dT.dayKey)) ∧
    (∀ f e y q, (f.dateFrom = none ∨ f.dateTo = none) → f.year = some y →
      f.quarter = some q → 1 ≤ q →
      (datePass f e = true ↔
        e.datePaid.getFullYear = y ∧
        3 * (q - 1) ≤ e.datePaid.getMonth ∧ e.datePaid.getMonth ≤ 3 * (q - 1) + 2)) ∧
    filterExpenses c5filterYQ c5expenses = [sampleExpense ⟨2024, 1, 15⟩ 1] ∧
    filterExpenses c5filterRange c5expenses =
      [sampleExpense ⟨2024, 1, 15⟩ 1, sampleExpense ⟨2024, 4, 10⟩ 2] := by
  refine ⟨?_, ?_, ?_, by decide, by decide⟩
  · intro f es e
    simp [filterExpenses, List.mem_filter, Bool.and_eq_true, and_assoc]
  · intro f e dF dT hF hT
    unfold datePass
    rw [hF, hT]
    show (!(decide (e.datePaid.ms < dF.ms) ||
        decide (e.datePaid.ms > dT.ms + 86399999))) = true ↔ _
    simp only [Bool.not_or, Bool.and_eq_true, Bool.not_eq_true',
      decide_eq_false_iff_not, not_lt, Date.ms]
    omega
  · intro f e y q hfr hy hq hq1
    rw [datePass_eq_year_branch f e hfr, hy, hq]
    show (if e.datePaid.getFullYear ≠ y then false
      else decide (e.datePaid.getMonth / 3 + 1 = q)) = true ↔ _
    by_cases hyy : e.datePaid.getFullYear = y
    · rw [if_neg (not_not_intro hyy)]
      simp only [decide_eq_true_eq]
      constructor
      · intro hquarter
        refine ⟨hyy, ?_, ?_⟩ <;> omega
      · rintro ⟨-, h1, h2⟩
        omega
    · rw [if_pos hyy]
      constructor
      · intro hfalse
        exact absurd hfalse (by simp)
      · rintro ⟨hyy', -, -⟩
        exact absurd hyy' hyy

theorem filterExpenses_spec_witness :
    c5filterRange.dateFrom = some ⟨2024, 1, 1⟩ ∧
    c5filterRange.dateTo = some ⟨2024, 6, 30⟩ ∧
    (datePass c5filterRange (sampleExpense ⟨2024, 4, 10⟩ 2) = true ↔
      (⟨2024, 1, 1⟩ : Date).dayKey ≤ (sampleExpense ⟨2024, 4, 10⟩ 2).datePaid.dayKey ∧
      (sampleExpense ⟨2024, 4, 10⟩ 2).datePaid.dayKey ≤ (⟨2024, 6, 30⟩ : Date).dayKey) :=
  ⟨rfl, rfl,
   (filterExpenses_spec).2.1 c5filterRange (sampleExpense ⟨2024, 4, 10⟩ 2)
     ⟨2024, 1, 1⟩ ⟨2024, 6, 30⟩ rfl rfl⟩

/-! ## C8 -/

theorem foldl_deductible (l : List Expense) (c : ℚ) :
    l.foldl (fun sum e => sum + e.deductible) c = c + (l.map (fun e => e.deductible)).sum := by
  induction l generalizing c with
  | nil => simp
  | cons e rest ih => simp [ih, add_assoc]

/-- C8: `groupByMonth` returns exactly `windowSize` entries, one per
trailing calendar month ending at the current month inclusive; entry
`j` carries that month's label, summed deductible and count; months
with no matching expense appear as zero-valued entries rather than
being skipped; over a 3-month window where only the middle month has
data the result is 3 entries, the first and last with deductible 0 and
count 0. -/
theorem groupByMonth_spec :
    (∀ es months nowM, (groupByMonth es months nowM).length = months) ∧
    (∀ es months nowM j, j < months →
      (groupByMonth es months nowM)[j]? =
        some { label := monthLabel (trailingMonth nowM months j),
               deductible := ((es.filter (monthMatches (trailingMonth nowM months j))).map
                   (fun e => e.deductible)).sum,
               count := (es.filter (monthMatches (trailingMonth nowM months j))).length }) ∧
    (∀ es months nowM j, j < months →
      (∀ e ∈ es, monthMatches (trailingMonth nowM months j) e = false) →
      (groupByMonth es months nowM)[j]? =
        some { label := monthLabel (trailingMonth nowM months j),
               deductible := 0, count := 0 }) ∧
    groupByMonth c8expenses 3 ⟨2024, 5⟩ =
      [{ label := "Apr 24", deductible := 0, count := 0 },
       { label := "May 24", deductible := 50, count := 1 },
       { label := "Jun 24", deductible := 0, count := 0 }] := by
  have hentry : ∀ es months nowM j, j < months →
      (groupByMonth es months nowM)[j]? =
        some { label := monthLabel (trailingMonth nowM months j),
               deductible := ((es.filter (monthMatches (trailingMonth nowM months j))).map
                   (fun e => e.deductible)).sum,
               count := (es.filter (monthMatches (trailingMonth nowM months j))).length } := by
    intro es months nowM j hj
    rw [groupByMonth, List.getElem?_map, List.getElem?_range hj, Option.map_some']
    unfold monthEntryFor trailingMonth
    rw [foldl_deductible, zero_add]
  refine ⟨?_, hentry, ?_, ?_⟩
  · intro es months nowM
    simp [groupByMonth]
  · intro es months nowM j hj hnone
    rw [hentry es months nowM j hj]
    have hfil : es.filter (monthMatches (trailingMonth nowM months j)) = [] :=
      List.filter_eq_nil_iff.mpr (fun e he => by simp [hnone e he])
    rw [hfil]
    rfl
  · rw [show groupByMonth c8expenses 3 ⟨2024, 5⟩ =
        [{ label := "Apr 24", deductible := 0, count := 0 },
         { label := "May 24", deductible := 0 + 50, count := 1 },
         { label := "Jun 24", deductible := 0, count := 0 }] from rfl]
    simp

theorem groupByMonth_spec_witness :
    (0 : Nat) < 3 ∧
    (∀ e ∈ c8expenses, monthMatches (trailingMonth ⟨2024, 5⟩ 3 0) e = false) ∧
    (groupByMonth c8expenses 3 ⟨2024, 5⟩)[0]? =
      some { label := monthLabel (trailingMonth ⟨2024, 5⟩ 3 0), deductible := 0, count := 0 } :=
  ⟨by decide, by decide,
   groupByMonth_spec.2.2.1 c8expenses 3 ⟨2024, 5⟩ 0 (by decide) (by decide)⟩

/-! ## C6 -/

/-- Seeding an empty registry inserts exactly the built-in set. -/
theorem initializeDefaults_empty_eq (es : List Expense) (sets : List (String × String))
    (nE nC : Nat) :
    (DB.mk es [] sets nE nC).initializeDefaultCategories =
      .ok (DB.mk es (defaultsWithIds nC) sets nE (nC + 10), defaultsWithIds nC) := rfl

/-- A freshly seeded registry is a fixed point: no `Desk`/`Chair` row
exists, so the second call returns the set unchanged. -/
theorem initializeDefaults_seeded_noop (es : List Expense) (sets : List (String × String))
    (nE nC nC' : Nat) :
    (DB.mk es (defaultsWithIds nC) sets nE nC').initializeDefaultCategories =
      .ok (DB.mk es (defaultsWithIds nC) sets nE nC', defaultsWithIds nC) := rfl

theorem mem_deleteCategory (s : DB) (id : Nat) (c : Category) :
    c ∈ (s.deleteCategory id).categories ↔ c ∈ s.categories ∧ c.id ≠ id := by
  simp [DB.deleteCategory, List.mem_filter]

/-- On a non-empty registry with no pending migration, the call
returns the current set unchanged. -/
theorem initializeDefaults_noop (s : DB) (hne : s.categories ≠ [])
    (hcond : (((s.categories.find? (fun c => decide (c.name = "Desk"))).isSome ||
        (s.categories.find? (fun c => decide (c.name = "Chair"))).isSome) &&
        !(s.categories.find? (fun c => decide (c.name = "Furniture"))).isSome) = false) :
    s.initializeDefaultCategories = .ok (s, s.categories) := by
  simp only [DB.initializeDefaultCategories]
  rw [if_pos (List.length_pos.mpr hne), if_neg (by rw [hcond]; simp)]

/-- With names unique, the record `find?` returns for a name is the
only record carrying it. -/
theorem find?_name_unique (l : List Category) (nm : String)
    (hn : (l.map (fun c => c.name)).Nodup) (d : Category)
    (hfind : l.find? (fun c => decide (c.name = nm)) = some d) :
    ∀ c ∈ l, c.name = nm → c = d := by
  intro c hc hcname
  have hdname : d.name = nm := by simpa using List.find?_some hfind
  have hdm := List.mem_of_find?_eq_some hfind
  exact List.inj_on_of_nodup_map hn hc hdm (by rw [hcname, hdname])

/-- The migration branch of `initializeDefaultCategories`: when a
legacy `Desk`/`Chair` row exists and no `Furniture` row does, the call
creates `Furniture`, deletes the legacy rows, returns the new set, and
a repeat call leaves that set unchanged. -/
theorem initializeDefaults_migration (s : DB)
    (hb : ∀ c ∈ s.categories, c.id < s.nextCategoryId)
    (hn : (s.categories.map (fun c => c.name)).Nodup)
    (hex : ∃ c ∈ s.categories, c.name = "Desk" ∨ c.name = "Chair")
    (hfurnabs : ∀ c ∈ s.categories, c.name ≠ "Furniture") :
    ∃ s1, s.initializeDefaultCategories = .ok (s1, s1.categories) ∧
      (∃ c ∈ s1.categories, c.name = "Furniture") ∧
      (∀ c ∈ s1.categories, c.name ≠ "Desk" ∧ c.name ≠ "Chair") ∧
      (∀ c ∈ s1.categories, c = furnCat s.nextCategoryId ∨ c ∈ s.categories) ∧
      s1.expenses = s.expenses ∧ s1.settings = s.settings ∧
      s1.initializeDefaultCategories = .ok (s1, s1.categories) := by
  have hlen : s.categories.length > 0 := by
    rcases hex with ⟨c, hc, -⟩
    exact List.length_pos.mpr (List.ne_nil_of_mem hc)
  have hne : s.categories ≠ [] := by
    rcases hex with ⟨c, hc, -⟩
    exact List.ne_nil_of_mem hc
  have hfurnnone : s.categories.find? (fun c => decide (c.name = "Furniture")) = none :=
    List.find?_eq_none.mpr (fun x hx => by simp [hfurnabs x hx])
  have hcond : (((s.categories.find? (fun c => decide (c.name = "Desk"))).isSome ||
      (s.categories.find? (fun c => decide (c.name = "Chair"))).isSome) &&
      !(s.categories.find? (fun c => decide (c.name = "Furniture"))).isSome) = true := by
    rw [hfurnnone]
    rcases hex with ⟨c, hc, hname | hname⟩
    · have hds : (s.categories.find? (fun c => decide (c.name = "Desk"))).isSome = true :=
        List.find?_isSome.mpr ⟨c, hc, by simp [hname]⟩
      rw [hds]
      rfl
    · have hcs : (s.categories.find? (fun c => decide (c.name = "Chair"))).isSome = true :=
        List.find?_isSome.mpr ⟨c, hc, by simp [hname]⟩
      rw [hcs]
      simp
  have hanyfurn : s.categories.any (fun x => decide (x.name = "Furniture")) = false :=
    List.any_eq_false.mpr (fun x hx => by simp [hfurnabs x hx])
  have hadd : s.addCategory ⟨"Furniture", "#ff5630", "🪑"⟩ none =
      .ok ({ s with
               categories := s.categories ++ [furnCat s.nextCategoryId],
               nextCategoryId := s.nextCategoryId + 1 }, s.nextCategoryId) := by
    unfold DB.addCategory
    rw [if_neg (by rw [hanyfurn]; simp)]
    rfl
  have hfurnmem1 : furnCat s.nextCategoryId ∈
      s.categories ++ [furnCat s.nextCategoryId] :=
    List.mem_append_right _ (List.mem_singleton_self _)
  have hfurnname : (furnCat s.nextCategoryId).name = "Furniture" := rfl
  -- run the branch, case-splitting on which legacy rows were found
  simp only [DB.initializeDefaultCategories]
  rw [if_pos hlen, if_pos hcond]
  simp only [hadd]
  rcases hdesk : s.categories.find? (fun c => decide (c.name = "Desk")) with _ | d
  · rcases hchair : s.categories.find? (fun c => decide (c.name = "Chair")) with _ | cc
    · -- impossible: the migration condition demands a legacy row
      rw [hdesk, hchair] at hcond
      simp at hcond
    · -- Chair only
      simp only [hdesk, hchair]
      have hccmem := List.mem_of_find?_eq_some hchair
      have hccname : cc.name = "Chair" := by simpa using List.find?_some hchair
      have hccbound := hb cc hccmem
      have hfm : furnCat s.nextCategoryId ∈
          (DB.deleteCategory
            { s with
                categories := s.categories ++ [furnCat s.nextCategoryId],
                nextCategoryId := s.nextCategoryId + 1 } cc.id).categories := by
        rw [mem_deleteCategory]
        exact ⟨hfurnmem1, fun h => by rw [show (furnCat s.nextCategoryId).id =
          s.nextCategoryId from rfl] at h; omega⟩
      refine ⟨_, rfl, ⟨furnCat s.nextCategoryId, hfm, hfurnname⟩, ?_, ?_, rfl, rfl, ?_⟩
      · intro c hc
        obtain ⟨hc1, hcid⟩ := (mem_deleteCategory _ _ _).mp hc
        have hc1' : c ∈ s.categories ++ [furnCat s.nextCategoryId] := hc1
        rcases List.mem_append.mp hc1' with hmem | hfmem
        · constructor
          · intro hcd
            have := List.find?_eq_none.mp hdesk c hmem
            simp [hcd] at this
          · intro hcc
            exact hcid (congrArg Category.id (find?_name_unique _ _ hn cc hchair c hmem hcc))
        · obtain rfl : c = furnCat s.nextCategoryId := List.mem_singleton.mp hfmem
          exact ⟨by rw [hfurnname]; decide, by rw [hfurnname]; decide⟩
      · intro c hc
        obtain ⟨hc1, -⟩ := (mem_deleteCategory _ _ _).mp hc
        have hc1' : c ∈ s.categories ++ [furnCat s.nextCategoryId] := hc1
        rcases List.mem_append.mp hc1' with hmem | hfmem
        · exact Or.inr hmem
        · exact Or.inl (List.mem_singleton.mp hfmem)
      · apply initializeDefaults_noop
        · exact List.ne_nil_of_mem hfm
        · have hf1 : ((DB.deleteCategory
              { s with
                  categories := s.categories ++ [furnCat s.nextCategoryId],
                  nextCategoryId := s.nextCategoryId + 1 } cc.id).categories.find?
                (fun c => decide (c.name = "Furniture"))).isSome = true :=
            List.find?_isSome.mpr ⟨furnCat s.nextCategoryId, hfm, by simp [hfurnname]⟩
          rw [hf1]
          simp
  · rcases hchair : s.categories.find? (fun c => decide (c.name = "Chair")) with _ | cc
    · -- Desk only
      simp only [hdesk, hchair]
      have hdmem := List.mem_of_find?_eq_some hdesk
      have hdname : d.name = "Desk" := by simpa using List.find?_some hdesk
      have hdbound := hb d hdmem
      have hfm : furnCat s.nextCategoryId ∈
          (DB.deleteCategory
            { s with
                categories := s.categories ++ [furnCat s.nextCategoryId],
                nextCategoryId := s.nextCategoryId + 1 } d.id).categories := by
        rw [mem_deleteCategory]
        exact ⟨hfurnmem1, fun h => by rw [show (furnCat s.nextCategoryId).id =
          s.nextCategoryId from rfl] at h; omega⟩
      refine ⟨_, rfl, ⟨furnCat s.nextCategoryId, hfm, hfurnname⟩, ?_, ?_, rfl, rfl, ?_⟩
      · intro c hc
        obtain ⟨hc1, hcid⟩ := (mem_deleteCategory _ _ _).mp hc
        have hc1' : c ∈ s.categories ++ [furnCat s.nextCategoryId] := hc1
        rcases List.mem_append.mp hc1' with hmem | hfmem
        · constructor
          · intro hcd
            exact hcid (congrArg Category.id (find?_name_unique _ _ hn d hdesk c hmem hcd))
          · intro hcc
            have := List.find?_eq_none.mp hchair c hmem
            simp [hcc] at this
        · obtain rfl : c = furnCat s.nextCategoryId := List.mem_singleton.mp hfmem
          exact ⟨by rw [hfurnname]; decide, by rw [hfurnname]; decide⟩
      · intro c hc
        obtain ⟨hc1, -⟩ := (mem_deleteCategory _ _ _).mp hc
        have hc1' : c ∈ s.categories ++ [furnCat s.nextCategoryId] := hc1
        rcases List.mem_append.mp hc1' with hmem | hfmem
        · exact Or.inr hmem
        · exact Or.inl (List.mem_singleton.mp hfmem)
      · apply initializeDefaults_noop
        · exact List.ne_nil_of_mem hfm
        · have hf1 : ((DB.deleteCategory
              { s with
                  categories := s.categories ++ [furnCat s.nextCategoryId],
                  nextCategoryId := s.nextCategoryId + 1 } d.id).categories.find?
                (fun c => decide (c.name = "Furniture"))).isSome = true :=
            List.find?_isSome.mpr ⟨furnCat s.nextCategoryId, hfm, by simp [hfurnname]⟩
          rw [hf1]
          simp
    · -- Desk and Chair
      simp only [hdesk, hchair]
      have hdmem := List.mem_of_find?_eq_some hdesk
      have hdname : d.name = "Desk" := by simpa using List.find?_some hdesk
      have hdbound := hb d hdmem
      have hccmem := List.mem_of_find?_eq_some hchair
      have hccname : cc.name = "Chair" := by simpa using List.find?_some hchair
      have hccbound := hb cc hccmem
      have hfm : furnCat s.nextCategoryId ∈
          (DB.deleteCategory
            (DB.deleteCategory
              { s with
                  categories := s.categories ++ [furnCat s.nextCategoryId],
                  nextCategoryId := s.nextCategoryId + 1 } d.id) cc.id).categories := by
        rw [mem_deleteCategory, mem_deleteCategory]
        refine ⟨⟨hfurnmem1, ?_⟩, ?_⟩ <;>
          exact fun h => by rw [show (furnCat s.nextCategoryId).id =
            s.nextCategoryId from rfl] at h; omega
      refine ⟨_, rfl, ⟨furnCat s.nextCategoryId, hfm, hfurnname⟩, ?_, ?_, rfl, rfl, ?_⟩
      · intro c hc
        obtain ⟨hcd2, hcidc⟩ := (mem_deleteCategory _ _ _).mp hc
        obtain ⟨hc1, hcidd⟩ := (mem_deleteCategory _ _ _).mp hcd2
        have hc1' : c ∈ s.categories ++ [furnCat s.nextCategoryId] := hc1
        rcases List.mem_append.mp hc1' with hmem | hfmem
        · constructor
          · intro hcd
            exact hcidd (congrArg Category.id (find?_name_unique _ _ hn d hdesk c hmem hcd))
          · intro hcc
            exact hcidc (congrArg Category.id (find?_name_unique _ _ hn cc hchair c hmem hcc))
        · obtain rfl : c = furnCat s.nextCategoryId := List.mem_singleton.mp hfmem
          exact ⟨by rw [hfurnname]; decide, by rw [hfurnname]; decide⟩
      · intro c hc
        obtain ⟨hcd2, -⟩ := (mem_deleteCategory _ _ _).mp hc
        obtain ⟨hc1, -⟩ := (mem_deleteCategory _ _ _).mp hcd2
        have hc1' : c ∈ s.categories ++ [furnCat s.nextCategoryId] := hc1
        rcases List.mem_append.mp hc1' with hmem | hfmem
        · exact Or.inr hmem
        · exact Or.inl (List.mem_singleton.mp hfmem)
      · apply initializeDefaults_noop
        · exact List.ne_nil_of_mem hfm
        · have hf1 : ((DB.deleteCategory (DB.deleteCategory
              { s with
                  categories := s.categories ++ [furnCat s.nextCategoryId],
                  nextCategoryId := s.nextCategoryId + 1 } d.id) cc.id).categories.find?
                (fun c => decide (c.name = "Furniture"))).isSome = true :=
            List.find?_isSome.mpr ⟨furnCat s.nextCategoryId, hfm, by simp [hfurnname]⟩
          rw [hf1]
          simp

/-- C6: `initializeDefaults` is idempotent — whenever it succeeds, a
second call returns the very same state and category set, so defaults
are never duplicated; an empty registry receives exactly the fixed
built-in set; a non-empty registry with no pending migration is
returned unchanged; and a non-empty registry with a legacy
`Desk`/`Chair` row but no `Furniture` row is migrated: `Furniture`
appears, the legacy rows are gone, nothing but that one record is
inserted, and expenses/settings are untouched. -/
theorem initializeDefaults_spec (s : DB)
    (hb : ∀ c ∈ s.categories, c.id < s.nextCategoryId)
    (hn : (s.categories.map (fun c => c.name)).Nodup) :
    (∀ s1 cs1, s.initializeDefaultCategories = .ok (s1, cs1) →
      cs1 = s1.categories ∧ s1.initializeDefaultCategories = .ok (s1, s1.categories)) ∧
    (s.categories = [] →
      ∃ s1, s.initializeDefaultCategories = .ok (s1, s1.categories) ∧
        s1.categories.map (fun c => c.name) =
          ["Internet", "Electricity", "Computer", "Furniture", "Office Supplies",
           "Software", "Professional Services", "Travel", "Mobile Device", "Other"] ∧
        s1.expenses = s.expenses ∧ s1.settings = s.settings) ∧
    (s.categories ≠ [] →
      ((∀ c ∈ s.categories, c.name ≠ "Desk" ∧ c.name ≠ "Chair") ∨
        (∃ c ∈ s.categories, c.name = "Furniture")) →
      s.initializeDefaultCategories = .ok (s, s.categories)) ∧
    ((∃ c ∈ s.categories, c.name = "Desk" ∨ c.name = "Chair") →
      (∀ c ∈ s.categories, c.name ≠ "Furniture") →
      ∃ s1, s.initializeDefaultCategories = .ok (s1, s1.categories) ∧
        (∃ c ∈ s1.categories, c.name = "Furniture") ∧
        (∀ c ∈ s1.categories, c.name ≠ "Desk" ∧ c.name ≠ "Chair") ∧
        (∀ c ∈ s1.categories, c = furnCat s.nextCategoryId ∨ c ∈ s.categories) ∧
        s1.expenses = s.expenses ∧ s1.settings = s.settings) := by
  have hnoopCond : s.categories ≠ [] →
      ((∀ c ∈ s.categories, c.name ≠ "Desk" ∧ c.name ≠ "Chair") ∨
        (∃ c ∈ s.categories, c.name = "Furniture")) →
      s.initializeDefaultCategories = .ok (s, s.categories) := by
    intro hne hsem
    apply initializeDefaults_noop s hne
    rcases hsem with hno | hfurn
    · have hd : s.categories.find? (fun c => decide (c.name = "Desk")) = none :=
        List.find?_eq_none.mpr (fun x hx => by simp [(hno x hx).1])
      have hc : s.categories.find? (fun c => decide (c.name = "Chair")) = none :=
        List.find?_eq_none.mpr (fun x hx => by simp [(hno x hx).2])
      rw [hd, hc]
      rfl
    · obtain ⟨c, hcm, hcn⟩ := hfurn
      have hf : (s.categories.find? (fun c => decide (c.name = "Furniture"))).isSome = true :=
        List.find?_isSome.mpr ⟨c, hcm, by simp [hcn]⟩
      rw [hf]
      simp
  refine ⟨?_, ?_, hnoopCond, ?_⟩
  · intro s1 cs1 hcall
    by_cases hempty : s.categories = []
    · clear hb hn hnoopCond
      obtain ⟨es, cats, sets, nE, nC⟩ := s
      replace hempty : cats = [] := hempty
      subst hempty
      rw [initializeDefaults_empty_eq] at hcall
      have hs1 : DB.mk es (defaultsWithIds nC) sets nE (nC + 10) = s1 :=
        ((Prod.mk.injEq _ _ _ _).mp (Except.ok.inj hcall)).1
      have hcs1 : defaultsWithIds nC = cs1 :=
        ((Prod.mk.injEq _ _ _ _).mp (Except.ok.inj hcall)).2
      subst hs1
      subst hcs1
      exact ⟨rfl, initializeDefaults_seeded_noop es sets nE nC (nC + 10)⟩
    · by_cases hcond : (((s.categories.find? (fun c => decide (c.name = "Desk"))).isSome ||
          (s.categories.find? (fun c => decide (c.name = "Chair"))).isSome) &&
          !(s.categories.find? (fun c => decide (c.name = "Furniture"))).isSome) = true
      · have hfurnabs : ∀ c ∈ s.categories, c.name ≠ "Furniture" := by
          intro c hc hcn
          have h1 := (Bool.and_eq_true _ _).mp hcond |>.2
          have h2 : (s.categories.find? (fun c => decide (c.name = "Furniture"))).isSome
              = true :=
            List.find?_isSome.mpr ⟨c, hc, by simp [hcn]⟩
          rw [h2] at h1
          simp at h1
        have hex : ∃ c ∈ s.categories, c.name = "Desk" ∨ c.name = "Chair" := by
          have h1 := (Bool.and_eq_true _ _).mp hcond |>.1
          rcases Bool.or_eq_true_iff.mp h1 with hd | hc
          · obtain ⟨c, hcm, hcp⟩ := List.find?_isSome.mp hd
            exact ⟨c, hcm, Or.inl (by simpa using hcp)⟩
          · obtain ⟨c, hcm, hcp⟩ := List.find?_isSome.mp hc
            exact ⟨c, hcm, Or.inr (by simpa using hcp)⟩
        obtain ⟨s1', h1, -, -, -, -, -, h7⟩ :=
          initializeDefaults_migration s hb hn hex hfurnabs
        rw [h1] at hcall
        have hs1 : s1' = s1 := ((Prod.mk.injEq _ _ _ _).mp (Except.ok.inj hcall)).1
        have hcs1 : s1'.categories = cs1 := ((Prod.mk.injEq _ _ _ _).mp (Except.ok.inj hcall)).2
        subst hs1
        subst hcs1
        exact ⟨rfl, h7⟩
      · have hrun := initializeDefaults_noop s hempty (Bool.eq_false_iff.mpr hcond)
        rw [hrun] at hcall
        have hs1 : s = s1 := ((Prod.mk.injEq _ _ _ _).mp (Except.ok.inj hcall)).1
        have hcs1 : s.categories = cs1 := ((Prod.mk.injEq _ _ _ _).mp (Except.ok.inj hcall)).2
        subst hs1
        subst hcs1
        exact ⟨rfl, hrun⟩
  · intro hempty
    clear hb hn hnoopCond
    obtain ⟨es, cats, sets, nE, nC⟩ := s
    replace hempty : cats = [] := hempty
    subst hempty
    exact ⟨DB.mk es (defaultsWithIds nC) sets nE (nC + 10),
      initializeDefaults_empty_eq es sets nE nC, rfl, rfl, rfl⟩
  · intro hex hfurnabs
    obtain ⟨s1, h1, h2, h3, h4, h5, h6, -⟩ :=
      initializeDefaults_migration s hb hn hex hfurnabs
    exact ⟨s1, h1, h2, h3, h4, h5, h6⟩

theorem initializeDefaults_spec_witness :
    (∀ c ∈ c6db.categories, c.id < c6db.nextCategoryId) ∧
    (c6db.categories.map (fun c => c.name)).Nodup ∧
    (∃ c ∈ c6db.categories, c.name = "Desk" ∨ c.name = "Chair") ∧
    (∀ c ∈ c6db.categories, c.name ≠ "Furniture") ∧
    (∃ s1, c6db.initializeDefaultCategories = .ok (s1, s1.categories) ∧
      (∃ c ∈ s1.categories, c.name = "Furniture") ∧
      (∀ c ∈ s1.categories, c.name ≠ "Desk" ∧ c.name ≠ "Chair") ∧
      (∀ c ∈ s1.categories, c = furnCat c6db.nextCategoryId ∨ c ∈ c6db.categories) ∧
      s1.expenses = c6db.expenses ∧ s1.settings = c6db.settings) :=
  ⟨by decide, by decide, by decide, by decide,
   (initializeDefaults_spec c6db (by decide) (by decide)).2.2.2 (by decide) (by decide)⟩

end TaxTracker
